import Mathlib

/-!
Verification of the `oml` model-serving core.

The Rust source is shallowly embedded: floating-point parameters are
modelled by exact rationals (ℚ), in-place mutation by explicit state
passing, and `Result<_, ModelError>` by `Except ModelError _`.
-/

namespace OML

/-- Embedding of `ModelError` (src/errors.rs): an enum with the single
variant `LockError(String)`. -/
inductive ModelError : Type
  | LockError (msg : String)
deriving DecidableEq, Repr

/-- Embedding of `impl fmt::Display for ModelError` (src/errors.rs):
writes `"LockError: {}"` with the carried message. -/
def ModelError.display : ModelError → String
  | .LockError msg => "LockError: " ++ msg

/-- Embedding of `impl From<PoisonError<T>> for ModelError` (src/errors.rs):
a poison error is converted to `LockError` carrying its message string. -/
def ModelError.fromPoison (msg : String) : ModelError :=
  ModelError.LockError msg

/-- Embedding of `SyncUnsafeCell<T>` (src/model.rs): a newtype around
`UnsafeCell<T>`.  Its state is exactly the contained value — the source
wraps no lock, so the cell carries no poison flag or any other field. -/
structure SyncUnsafeCell (α : Type) where
  val : α
deriving DecidableEq, Repr

/-- `SyncUnsafeCell::new` (src/model.rs). -/
def SyncUnsafeCell.new (v : α) : SyncUnsafeCell α := ⟨v⟩

/-- `SyncUnsafeCell::get` (src/model.rs): immutable access to the contents.
It dereferences the raw pointer unconditionally: no locking, no failure. -/
def SyncUnsafeCell.get (c : SyncUnsafeCell α) : α := c.val

/-- `SyncUnsafeCell::get_mut` (src/model.rs), lifted to state passing:
a write through the returned mutable reference replaces the contents.
It too dereferences unconditionally: no locking, no failure. -/
def SyncUnsafeCell.modify (c : SyncUnsafeCell α) (f : α → α) : SyncUnsafeCell α :=
  ⟨f c.val⟩

/-- Whether the cell's synchronization primitive is poisoned.  The source's
cell is a bare `UnsafeCell` with no `Mutex`/`RwLock`, so a poisoned
configuration is not representable in its state: the predicate is empty. -/
def SyncUnsafeCell.poisoned (_ : SyncUnsafeCell α) : Prop := False

/-- Embedding of `Model<T>` (src/model.rs): holds
`parameters: SyncUnsafeCell<Vec<T>>`. -/
structure Model where
  parameters : SyncUnsafeCell (List ℚ)
deriving DecidableEq, Repr

/-- `Model::new` (src/model.rs): an empty parameter vector. -/
def Model.new : Model := ⟨SyncUnsafeCell.new []⟩

/-- `Model::with_parameters` (src/model.rs). -/
def Model.with_parameters (params : List ℚ) : Model :=
  ⟨SyncUnsafeCell.new params⟩

/-- `Model::get_parameters` (src/model.rs): immutable access via the cell. -/
def Model.get_parameters (m : Model) : List ℚ :=
  m.parameters.get

/-- A write through `Model::get_parameters_mut` (src/model.rs), as state
passing: the mutation `f` is applied to the cell's contents. -/
def Model.writeParameters (m : Model) (f : List ℚ → List ℚ) : Model :=
  ⟨m.parameters.modify f⟩

/-- The body of the training write loop
`params.iter_mut().for_each(|param| *param = *param * x)`
(src/algorithm.rs, DummyAlgorithm::training_step): each element is
replaced, in order, by itself times `x`. -/
def scaleLoop (x : ℚ) : List ℚ → List ℚ
  | [] => []
  | p :: ps => p * x :: scaleLoop x ps

/-- `DummyAlgorithm::training_step` (src/algorithm.rs): obtains the
parameters through `get_parameters_mut`, scales every element in place
by `x`, and returns `Ok(())`.  The simulated `thread::sleep` delay has
no effect on the state and is elided.  The pair is (returned result,
model state after the call). -/
def DummyAlgorithm.training_step (m : Model) (x : ℚ) :
    Except ModelError Unit × Model :=
  (Except.ok (), m.writeParameters (scaleLoop x))

/-- `DummyAlgorithm::inference_step` (src/algorithm.rs): obtains the
parameters through `get_parameters` (read-only access), and returns
`Ok(params.iter().map(|param| *param * x).sum())`.  The body performs no
write, so the model state after the call is the model itself. -/
def DummyAlgorithm.inference_step (m : Model) (x : ℚ) :
    Except ModelError ℚ × Model :=
  (Except.ok ((m.get_parameters.map (fun p => p * x)).sum), m)

/-- A compute-step invocation against the shared store: a training or an
inference call with its scalar input. -/
inductive Op : Type
  | train (x : ℚ)
  | infer (x : ℚ)
deriving DecidableEq, Repr

/-- The store state after one compute-step call (sequential execution). -/
def runOp (m : Model) : Op → Model
  | .train x => (DummyAlgorithm.training_step m x).2
  | .infer x => (DummyAlgorithm.inference_step m x).2

/-- The store state after a sequence of compute-step calls. -/
def runOps (m : Model) : List Op → Model
  | [] => m
  | op :: ops => runOps (runOp m op) ops

/-- Memory state of the parameter vector partway through the training write
loop (src/algorithm.rs): after the loop body has run for the first `k`
elements, those hold their old value times `x` while the remaining elements
still hold their old values.  The source cell's documented discipline
("Reads can occur simultaneously without restriction" while a write is in
progress) lets a concurrent `get` observe any such intermediate state. -/
def midWrite (ps : List ℚ) (x : ℚ) (k : ℕ) : List ℚ :=
  (ps.take k).map (fun p => p * x) ++ ps.drop k

/-- Memory accesses of two training steps (writers A and B) racing on a
single-element parameter vector: the loop body `*param = *param * x` is a
load of the element followed by a store of the loaded value times the
factor. -/
inductive RaceEv : Type
  | loadA
  | storeA
  | loadB
  | storeB
deriving DecidableEq, Repr

/-- Shared-memory state of the race: the parameter in the cell and the
values each writer's load has placed in its local register. -/
structure RaceState where
  mem : ℚ
  regA : Option ℚ
  regB : Option ℚ
deriving DecidableEq, Repr

/-- Effect of one memory access, for training factors `a` (writer A) and
`b` (writer B).  A store writes the loaded value times the factor; in a
well-formed trace each store follows its own load, so the `getD` default
is never consulted there. -/
def raceStep (a b : ℚ) (s : RaceState) : RaceEv → RaceState
  | .loadA => { s with regA := some s.mem }
  | .storeA => { s with mem := s.regA.getD s.mem * a }
  | .loadB => { s with regB := some s.mem }
  | .storeB => { s with mem := s.regB.getD s.mem * b }

/-- Run a trace of interleaved memory accesses of the two racing writers. -/
def runRace (a b : ℚ) (s : RaceState) : List RaceEv → RaceState
  | [] => s
  | e :: es => runRace a b (raceStep a b s e) es

/-- The interleaving in which both writers load the parameter before
either stores: A loads, B loads, A stores, B stores.  The cell imposes no
mutual exclusion, so this schedule is admitted. -/
def raceTrace : List RaceEv :=
  [RaceEv.loadA, RaceEv.loadB, RaceEv.storeA, RaceEv.storeB]

/-- An HTTP response as the handlers build it: a status code and a body. -/
structure HttpResponse where
  status : ℕ
  body : String
deriving DecidableEq, Repr

/-- Outcome of awaiting `tokio::task::spawn_blocking` (src/handlers.rs):
`ok` carries the closure's own result; `err` is a `JoinError` — the worker
terminated abnormally — carrying its debug text. -/
inductive JoinResult (α : Type) : Type
  | ok (a : α)
  | err (msg : String)
deriving DecidableEq, Repr

/-- The serialized JSON body of a scalar result (`HttpResponse::Ok().json`). -/
def ratJson (q : ℚ) : String := toString q

/-- Response construction of `handle_inference_step` (src/handlers.rs)
from the awaited worker outcome: `Ok(Ok(result))` → 200 with the JSON
scalar; `Ok(Err(e))` → 500 with the error's display text;
`Err(e)` (JoinError) → 500 with `"Task failed: {:?}"`. -/
def handle_inference_step (j : JoinResult (Except ModelError ℚ)) : HttpResponse :=
  match j with
  | .ok (Except.ok result) => ⟨200, ratJson result⟩
  | .ok (Except.error e) => ⟨500, e.display⟩
  | .err e => ⟨500, "Task failed: " ++ e⟩

/-- Response construction of `handle_training_step` (src/handlers.rs):
`Ok(Ok(()))` → 200 with an empty body (`finish()`); `Ok(Err(e))` → 500
with the error's display text; `Err(e)` → 500 with `"Task failed: {:?}"`. -/
def handle_training_step (j : JoinResult (Except ModelError Unit)) : HttpResponse :=
  match j with
  | .ok (Except.ok _) => ⟨200, ""⟩
  | .ok (Except.error e) => ⟨500, e.display⟩
  | .err e => ⟨500, "Task failed: " ++ e⟩

/-- Embedding of `Tensor<T>` (src/tensors.rs): a shape and a data vector. -/
structure Tensor (α : Type) where
  shape : List ℕ
  data : List α
deriving DecidableEq, Repr

/-- `Tensor::new` (src/tensors.rs): panics (modelled as `none`) when the
product of the shape's dimensions differs from the data length, otherwise
stores shape and data as given. -/
def Tensor.new (shape : List ℕ) (data : List α) : Option (Tensor α) :=
  if shape.prod ≠ data.length then none
  else some ⟨shape, data⟩

/-- `Tensor::get_shape` (src/tensors.rs): a clone of the shape vector. -/
def Tensor.get_shape (t : Tensor α) : List ℕ := t.shape

/-- `Tensor::get_data` (src/tensors.rs): a clone of the data vector. -/
def Tensor.get_data (t : Tensor α) : List α := t.data

/-! ### Helper lemmas -/

/-- The in-place scaling loop computes the elementwise map. -/
theorem scaleLoop_eq_map (x : ℚ) (ps : List ℚ) :
    scaleLoop x ps = ps.map (fun p => p * x) := by
  induction ps with
  | nil => rfl
  | cons p ps ih => simp [scaleLoop, ih]

/-- Before any element is updated, the mid-write state is the old vector. -/
theorem midWrite_zero (ps : List ℚ) (x : ℚ) : midWrite ps x 0 = ps := by
  simp [midWrite]

/-- After the loop has updated every element, the mid-write state is the
fully scaled vector, i.e. the state the training step leaves behind. -/
theorem midWrite_length (ps : List ℚ) (x : ℚ) :
    midWrite ps x ps.length = scaleLoop x ps := by
  simp [midWrite, scaleLoop_eq_map]

/-- The iterator sum of the inference body equals the index-wise sum. -/
theorem map_mul_sum_eq_fin_sum (ps : List ℚ) (x : ℚ) :
    (ps.map (fun p => p * x)).sum = ∑ i : Fin ps.length, ps.get i * x := by
  rw [← List.sum_ofFn]
  congr 1
  apply List.ext_get
  · simp
  · intro n h1 h2
    simp [List.get_ofFn]

/-- The two 500 bodies of the handlers never coincide: a JoinError body
starts with "Task failed: ", a step-error body with "LockError: ". -/
theorem taskFailed_body_ne_lockError (a b : String) :
    "Task failed: " ++ a ≠ "LockError: " ++ b := by
  intro h
  have h2 : ("Task failed: " ++ a).data = ("LockError: " ++ b).data :=
    congrArg String.data h
  simp [String.data_append] at h2

/-! ### Claim theorems -/

/-- C1: For every parameter sequence and every scalar `x`,
`DummyAlgorithm::training_step` returns `Ok(())` and replaces each
parameter `p_i` of the store with `p_i * x`, in order, leaving no
parameter unscaled. -/
theorem training_step_scales_every_parameter (m : Model) (x : ℚ) :
    (DummyAlgorithm.training_step m x).1 = Except.ok () ∧
    (DummyAlgorithm.training_step m x).2.get_parameters
      = m.get_parameters.map (fun p => p * x) ∧
    ∀ i : ℕ, ((DummyAlgorithm.training_step m x).2.get_parameters)[i]?
      = (m.get_parameters[i]?).map (fun p => p * x) := by
  have hmap : (DummyAlgorithm.training_step m x).2.get_parameters
      = m.get_parameters.map (fun p => p * x) :=
    scaleLoop_eq_map x m.get_parameters
  refine ⟨rfl, hmap, fun i => ?_⟩
  rw [hmap]
  simp

/-- C2: For every parameter sequence (the empty one included) and every
scalar `x`, `DummyAlgorithm::inference_step` returns `Ok` of the sum over
all `i` of `p_i * x`; on an empty sequence it returns `0` for any `x`. -/
theorem inference_step_returns_dot_product (m : Model) (x : ℚ) :
    (DummyAlgorithm.inference_step m x).1
      = Except.ok (∑ i : Fin m.get_parameters.length, m.get_parameters.get i * x) ∧
    (DummyAlgorithm.inference_step (Model.with_parameters []) x).1 = Except.ok 0 := by
  exact ⟨congrArg Except.ok (map_mul_sum_eq_fin_sum m.get_parameters x), rfl⟩

/-- C3: `inference_step` is observably read-only: any number of
`inference_step` calls with no interleaved `training_step` leaves the
store's parameter sequence exactly as it was. -/
theorem inference_steps_leave_store_unchanged (m : Model) (ops : List Op)
    (h : ∀ op ∈ ops, ∃ x, op = Op.infer x) :
    (runOps m ops).get_parameters = m.get_parameters := by
  induction ops generalizing m with
  | nil => rfl
  | cons op ops ih =>
    obtain ⟨x, rfl⟩ := h op (List.mem_cons_self op ops)
    exact ih m fun o ho => h o (List.mem_cons_of_mem _ ho)

/-- Witness for C3: two concrete inference calls on the store
`[1, 2, 3]` leave its parameters untouched. -/
theorem inference_steps_leave_store_unchanged_witness :
    (∀ op ∈ [Op.infer 2, Op.infer 5], ∃ x, op = Op.infer x) ∧
    (runOps (Model.with_parameters [1, 2, 3]) [Op.infer 2, Op.infer 5]).get_parameters
      = (Model.with_parameters [1, 2, 3]).get_parameters :=
  ⟨by simp, inference_steps_leave_store_unchanged _ _ (by simp)⟩

/-- C4: The length of the store's parameter sequence is an invariant: it
is fixed at construction and no compute step (training or inference)
changes the number of elements. -/
theorem parameter_count_invariant :
    (∀ ps : List ℚ, (Model.with_parameters ps).get_parameters.length = ps.length) ∧
    Model.new.get_parameters.length = 0 ∧
    ∀ (m : Model) (op : Op),
      (runOp m op).get_parameters.length = m.get_parameters.length := by
  refine ⟨fun ps => rfl, rfl, fun m op => ?_⟩
  cases op with
  | train x =>
    show (scaleLoop x m.get_parameters).length = _
    rw [scaleLoop_eq_map]
    exact List.length_map _ _
  | infer x => rfl

/-- C5 fails on the code: a read racing the training write loop on the
store `[1, 2]` with factor `2` can observe the intermediate state
`[2, 2]` — the first element already scaled, the second not — which is
neither the pre-write sequence `[1, 2]` nor the post-write sequence
`[2, 4]`: a torn read. -/
theorem torn_read_admitted :
    midWrite [1, 2] 2 0 = (Model.with_parameters [1, 2]).get_parameters ∧
    midWrite [1, 2] 2 2
      = (DummyAlgorithm.training_step (Model.with_parameters [1, 2]) 2).2.get_parameters ∧
    midWrite [1, 2] 2 1 = [2, 2] ∧
    midWrite [1, 2] 2 1 ≠ (Model.with_parameters [1, 2]).get_parameters ∧
    midWrite [1, 2] 2 1
      ≠ (DummyAlgorithm.training_step (Model.with_parameters [1, 2]) 2).2.get_parameters := by
  refine ⟨midWrite_zero _ _, midWrite_length [1, 2] 2, ?_, ?_, ?_⟩ <;>
    norm_num [midWrite, Model.with_parameters, Model.get_parameters,
      Model.writeParameters, SyncUnsafeCell.new, SyncUnsafeCell.get,
      SyncUnsafeCell.modify, DummyAlgorithm.training_step, scaleLoop]

/-- C6 fails on the code: with no mutual exclusion between writers, two
training steps with factors `2` and `3` racing on the single-element
store `[1]` may both load the old value before either stores, a valid
interleaving of the two steps' memory accesses; the final value is then
`3` (the first update is lost), not `1 * 2 * 3 = 6`. -/
theorem concurrent_training_lost_update :
    List.Sublist [RaceEv.loadA, RaceEv.storeA] raceTrace ∧
    List.Sublist [RaceEv.loadB, RaceEv.storeB] raceTrace ∧
    (runRace 2 3 ⟨1, none, none⟩ raceTrace).mem = 3 ∧
    (3 : ℚ) ≠ 1 * 2 * 3 := by
  refine ⟨by decide, by decide, ?_, by norm_num⟩
  norm_num [runRace, raceTrace, raceStep]

/-- C7: the store's accessors fail with a LockFailure exactly when the
synchronization primitive is poisoned — in this code vacuously so: the
cell wraps no lock, no poisoned state is representable, and the accessors
never fail; the poison-to-LockError conversion path exists and an error
reaching a handler is reported to the caller, not silently dropped. -/
theorem lock_failure_iff_poisoned :
    (∀ c : SyncUnsafeCell (List ℚ), ¬ SyncUnsafeCell.poisoned c) ∧
    (∀ (m : Model) (x : ℚ), (DummyAlgorithm.training_step m x).1.isOk = true ∧
      (DummyAlgorithm.inference_step m x).1.isOk = true) ∧
    (∀ msg : String, ModelError.fromPoison msg = ModelError.LockError msg) ∧
    ∀ e : ModelError,
      (handle_training_step (JoinResult.ok (Except.error e))).status = 500 ∧
      (handle_training_step (JoinResult.ok (Except.error e))).body = e.display :=
  ⟨fun _ h => h, fun _ _ => ⟨rfl, rfl⟩, fun _ => rfl, fun _ => ⟨rfl, rfl⟩⟩

/-- C8: a worker fault surfaces as a response distinct from a step-level
error's response in both handlers (their bodies differ: "Task failed: …"
versus the error's display text), and each failure path yields an
explicit 500 response rather than an abort. -/
theorem worker_failure_distinguishable (msg : String) (e : ModelError) :
    (handle_inference_step (JoinResult.err msg)).status = 500 ∧
    (handle_inference_step (JoinResult.ok (Except.error e))).status = 500 ∧
    handle_inference_step (JoinResult.err msg)
      ≠ handle_inference_step (JoinResult.ok (Except.error e)) ∧
    (handle_training_step (JoinResult.err msg)).status = 500 ∧
    (handle_training_step (JoinResult.ok (Except.error e))).status = 500 ∧
    handle_training_step (JoinResult.err msg)
      ≠ handle_training_step (JoinResult.ok (Except.error e)) := by
  obtain ⟨em⟩ := e
  refine ⟨rfl, rfl, fun h => ?_, rfl, rfl, fun h => ?_⟩ <;>
    exact taskFailed_body_ne_lockError msg em (congrArg HttpResponse.body h)

/-- C9: the reference step is infallible: both DummyAlgorithm operations
return `Ok` for every model and scalar, so the step-level error branch of
each request handler is unreachable when the DummyAlgorithm is used. -/
theorem dummy_algorithm_infallible (m : Model) (x : ℚ) :
    (DummyAlgorithm.training_step m x).1 = Except.ok () ∧
    (∃ v, (DummyAlgorithm.inference_step m x).1 = Except.ok v) ∧
    (handle_training_step (JoinResult.ok (DummyAlgorithm.training_step m x).1)).status
      = 200 ∧
    (handle_inference_step (JoinResult.ok (DummyAlgorithm.inference_step m x).1)).status
      = 200 :=
  ⟨rfl, ⟨_, rfl⟩, rfl, rfl⟩

/-- C10: `Tensor::new` panics (here: `none`) precisely when the product of
the shape's dimensions differs from the data length; on success,
`get_shape` and `get_data` return exactly the vectors passed in. -/
theorem tensor_new_panics_iff_shape_mismatch (shape : List ℕ) (data : List α) :
    (Tensor.new shape data = none ↔ shape.prod ≠ data.length) ∧
    ∀ t : Tensor α, Tensor.new shape data = some t →
      t.get_shape = shape ∧ t.get_data = data := by
  constructor
  · unfold Tensor.new
    split
    · case isTrue h => simpa using h
    · case isFalse h => simp [h]
  · intro t ht
    unfold Tensor.new at ht
    split at ht
    · exact absurd ht (by simp)
    · cases ht
      exact ⟨rfl, rfl⟩

/-- Witness for C10: constructing a tensor of shape `[2]` from two data
elements succeeds and the accessors return the inputs unchanged. -/
theorem tensor_new_witness :
    Tensor.new [2] [(5 : ℚ), 6] = some ⟨[2], [5, 6]⟩ ∧
    (⟨[2], [5, 6]⟩ : Tensor ℚ).get_shape = [2] ∧
    (⟨[2], [5, 6]⟩ : Tensor ℚ).get_data = [5, 6] :=
  ⟨by simp [Tensor.new],
    (tensor_new_panics_iff_shape_mismatch [2] [(5 : ℚ), 6]).2 ⟨[2], [5, 6]⟩
      (by simp [Tensor.new])⟩

end OML
